import Mathlib

/-!
# Shallow embedding of the ZenGRC bulk-export client

This file embeds the application logic of the ZenGRC attachment downloader
(`main.go` and `client.go`) into Lean and proves the specification's claims
about it.

Modelling choices (each definition is translated from the named Go source
function):

* Filesystem paths are lists of path segments, mirroring `filepath.Join`; byte
  contents are `List Nat`.  The filesystem is an explicit state value `FS`
  (directory set plus an association list from path to content), threaded
  through the operations that touch disk.
* Network calls are modelled by outcome values supplied in an environment:
  the code never interprets a response beyond decoding it, so an outcome is
  either an error or the decoded payload.  A download additionally records the
  bytes the body copy managed to write and whether the copy then failed,
  mirroring `io.Copy`'s partial-write-then-error behaviour.
* Goroutine channel semantics: a Go channel delivers each sent value to
  exactly one receiver.  A run of the worker pool is therefore modelled by an
  assignment of each emitted record to the index of the worker that received
  it; each worker invokes `processRequest` once per received record, exactly
  as the `for request := range requestsChan` loop does.
* Effects that matter to the claims (which error values are returned, which
  messages `log.Printf` emits, which operations execute and in which order)
  are made observable: `processRequest` returns, besides the filesystem, the
  returned error, the logged download errors, and a trace of performed
  operations.
-/

/-- A filesystem path, as the list of segments handed to `filepath.Join`. -/
abbrev FPath := List String

/-- A ZenGRC request record as consumed by the pipeline (`Request` in
`client.go`).  The pipeline reads only `ID` and `Title`; the many remaining
fields of the Go struct are an opaque payload that is never interpreted, so
they are omitted from the embedding. -/
structure Request where
  ID : Int
  Title : String
deriving DecidableEq, Repr

/-- An attachment descriptor (`File` in `client.go`). -/
structure File where
  DocumentID : Int
  Name : String
  UploadedAt : String
deriving DecidableEq, Repr

/-- One page of the listing response (`RequestListResponse` in `client.go`):
the decoded records plus `Links.Next.Href` (empty string when absent). -/
structure Page where
  data : List Request
  next : String
deriving DecidableEq, Repr

/-- Insert-or-replace in an association list from paths to contents. -/
def setAssoc : List (FPath × List Nat) → FPath → List Nat → List (FPath × List Nat)
  | [], p, b => [(p, b)]
  | (q, c) :: rest, p, b =>
    if q = p then (p, b) :: rest else (q, c) :: setAssoc rest p b

/-- Lookup in an association list from paths to contents. -/
def getAssoc : List (FPath × List Nat) → FPath → Option (List Nat)
  | [], _ => none
  | (q, c) :: rest, p => if q = p then some c else getAssoc rest p

/-- The filesystem state: the set of created directories and the files with
their byte contents. -/
structure FS where
  dirs : List FPath
  files : List (FPath × List Nat)
deriving DecidableEq, Repr

/-- Read a file's contents (`none` when no file exists at the path);
also models the `os.Stat` existence probe. -/
def FS.getFile (fs : FS) (p : FPath) : Option (List Nat) :=
  getAssoc fs.files p

/-- Create-or-truncate-and-write a file (`os.Create` / `os.WriteFile`). -/
def FS.writeFile (fs : FS) (p : FPath) (b : List Nat) : FS :=
  { fs with files := setAssoc fs.files p b }

/-- Create a directory and its parents (`os.MkdirAll`). -/
def FS.mkdirAll (fs : FS) (d : FPath) : FS :=
  { fs with dirs := if d ∈ fs.dirs then fs.dirs else d :: fs.dirs }

/-- Outcome of the HTTP download call inside `DownloadAttachment`: either
`httpClient.Do` fails, or a response arrives with a status code, the bytes
that `io.Copy` manages to write to the destination, and whether the copy then
returns an error. -/
inductive HttpOutcome where
  | reqErr : HttpOutcome
  | resp : Nat → List Nat → Bool → HttpOutcome

/-- The error value returned by `DownloadAttachment`. -/
inductive DlErr where
  | reqErr : DlErr
  | badStatus : Nat → DlErr
  | copyErr : DlErr
deriving DecidableEq, Repr

/-- Result of one `DownloadAttachment` call: the filesystem afterwards, the
returned error, and whether the skip-existing branch fired. -/
structure DlResult where
  fs : FS
  err : Option DlErr
  skipped : Bool
deriving DecidableEq, Repr

/-- `Client.DownloadAttachment` (`client.go` lines 251–289).  The destination
is `filepath.Join(outputDir, attachment.Name)`.  When `overwrite` is false and
a file already occupies the destination, the download is skipped with no
error.  Otherwise the HTTP call runs; on success `os.Create` truncates the
destination and `io.Copy` writes the body, returning the copy error if any.
`requestID` only parameterises the URL and does not affect the result. -/
def downloadAttachment (fs : FS) (requestID : Int) (attachment : File)
    (outputDir : FPath) (overwrite : Bool) (out : HttpOutcome) : DlResult :=
  let filePath := outputDir ++ [attachment.Name]
  if !overwrite && (fs.getFile filePath).isSome then
    { fs := fs, err := none, skipped := true }
  else
    match out with
    | .reqErr => { fs := fs, err := some .reqErr, skipped := false }
    | .resp code written copyFailed =>
      if code ≠ 200 then
        { fs := fs, err := some (.badStatus code), skipped := false }
      else
        let created := fs.writeFile filePath []
        let afterCopy := created.writeFile filePath written
        { fs := afterCopy,
          err := if copyFailed then some .copyErr else none,
          skipped := false }

/-- The error returned by `processRequest`, tagged exactly as the Go code
wraps it: each constructor carries the record ID that the corresponding
`fmt.Errorf` format string interpolates. -/
inductive RecErr where
  | dirCreate : Int → RecErr
  | metadata : Int → RecErr
  | attachmentList : Int → RecErr
deriving DecidableEq, Repr

/-- A message emitted through `log.Printf` inside `processRequest`: the only
such message is the per-attachment download failure, annotated with the
record ID and the attachment name. -/
inductive LogMsg where
  | downloadErr : Int → String → LogMsg
deriving DecidableEq, Repr

/-- An observable operation performed during record processing, in the order
the code performs them. -/
inductive Op where
  | mkdirAll : FPath → Op
  | fetchDetails : Int → Op
  | writeMetadata : FPath → Op
  | fetchAttachments : Int → Op
  | download : Int → Int → String → Op
  | skipExisting : FPath → Op
deriving DecidableEq, Repr

/-- The outcomes of the network and filesystem calls a single record's
processing may perform: `os.MkdirAll` success, the
`GetRequestDetails`-plus-`json.MarshalIndent` outcome (serialized bytes on
success), the `os.WriteFile` outcome for the metadata file, the
`GetAttachments` outcome, and the download outcome for each attachment index.
On a failed metadata write the bytes are modelled as written before the error
is returned (the claims never examine the file in that case). -/
structure RecordEnv where
  mkdirOk : Bool
  metadataResult : Except Unit (List Nat)
  writeMetaOk : Bool
  attachmentsResult : Except Unit (List File)
  download : Nat → HttpOutcome

/-- `saveMetadata` (`main.go`): fetch the full details of the record,
serialize, and write `metadata.json` into the record directory,
unconditionally overwriting prior content.  Returns the filesystem, the
returned error, and the trace of performed operations. -/
def saveMetadata (env : RecordEnv) (fs : FS) (requestID : Int) (dir : FPath) :
    FS × Option Unit × List Op :=
  match env.metadataResult with
  | .error _ => (fs, some (), [.fetchDetails requestID])
  | .ok data =>
    let fs1 := fs.writeFile (dir ++ ["metadata.json"]) data
    (fs1, if env.writeMetaOk then none else some (),
      [.fetchDetails requestID, .writeMetadata (dir ++ ["metadata.json"])])

/-- The attachment download loop of `processRequest`: for each descriptor in
list order, call `DownloadAttachment`; a failure is logged (with record ID and
attachment name) and the loop continues.  The index threads the per-attachment
outcome of the environment. -/
def downloadLoop (env : RecordEnv) (requestID : Int) (recordDir : FPath)
    (overwrite : Bool) : List File → Nat → FS → FS × List LogMsg × List Op
  | [], _, fs => (fs, [], [])
  | a :: rest, i, fs =>
    let r := downloadAttachment fs requestID a recordDir overwrite (env.download i)
    let op := if r.skipped then Op.skipExisting (recordDir ++ [a.Name])
              else Op.download requestID a.DocumentID a.Name
    let here : List LogMsg :=
      match r.err with
      | some _ => [.downloadErr requestID a.Name]
      | none => []
    let tailRes := downloadLoop env requestID recordDir overwrite rest (i + 1) r.fs
    (tailRes.1, here ++ tailRes.2.1, op :: tailRes.2.2)

/-- The observable result of `processRequest`: final filesystem, returned
error, logged download failures, and the trace of performed operations. -/
structure ProcResult where
  fs : FS
  err : Option RecErr
  logs : List LogMsg
  trace : List Op
deriving DecidableEq, Repr

/-- The record directory: `filepath.Join(outputDir, fmt.Sprintf("record_%d",
request.ID))` — a deterministic pure function of the output root and ID. -/
def recordDirOf (outputDir : String) (requestID : Int) : FPath :=
  [outputDir, "record_" ++ toString requestID]

/-- `processRequest` (`main.go` lines 92–120): create the record directory,
save metadata, fetch the attachment list, then download each attachment in
list order.  Directory, metadata, and attachment-list failures return the
correspondingly tagged error immediately; a download failure is only logged
and the function returns `none` (success) regardless. -/
def processRequest (env : RecordEnv) (fs : FS) (request : Request)
    (outputDir : String) (overwrite : Bool) : ProcResult :=
  let recordDir := recordDirOf outputDir request.ID
  if !env.mkdirOk then
    { fs := fs, err := some (.dirCreate request.ID), logs := [],
      trace := [.mkdirAll recordDir] }
  else
    let fs0 := fs.mkdirAll recordDir
    let m := saveMetadata env fs0 request.ID recordDir
    match m.2.1 with
    | some _ =>
      { fs := m.1, err := some (.metadata request.ID), logs := [],
        trace := Op.mkdirAll recordDir :: m.2.2 }
    | none =>
      match env.attachmentsResult with
      | .error _ =>
        { fs := m.1, err := some (.attachmentList request.ID), logs := [],
          trace := (Op.mkdirAll recordDir :: m.2.2) ++ [.fetchAttachments request.ID] }
      | .ok attachments =>
        let d := downloadLoop env request.ID recordDir overwrite attachments 0 m.1
        { fs := d.1, err := none, logs := d.2.1,
          trace := (Op.mkdirAll recordDir :: m.2.2) ++
            Op.fetchAttachments request.ID :: d.2.2 }

/-- What the pagination goroutine produced by the end of a run: the records
sent onto `requestsChan` in order, the number of discovery errors sent onto
`errChan`, and the number of `GetRequests` calls made. -/
structure DiscoveryResult where
  emitted : List Request
  errors : Nat
  calls : Nat
deriving DecidableEq, Repr

/-- The pagination goroutine of `main` (`main.go` lines 56–76), run against a
mocked listing source given as the finite sequence of successive `GetRequests`
outcomes.  Each iteration makes one call; on error it reports one discovery
error and stops; otherwise it emits the page's records in order and stops
when `Links.Next.Href` is empty.  In every case the goroutine then closes the
channel.  A well-formed mock ends with a no-next page or an error, so the
source is never exhausted; the `[]` case is unreachable under the hypotheses
used below. -/
def discoverRecords : List (Except Unit Page) → DiscoveryResult
  | [] => { emitted := [], errors := 0, calls := 0 }
  | .error _ :: _ => { emitted := [], errors := 1, calls := 1 }
  | .ok p :: rest =>
    if p.next = "" then { emitted := p.data, errors := 0, calls := 1 }
    else
      let r := discoverRecords rest
      { emitted := p.data ++ r.emitted, errors := r.errors, calls := r.calls + 1 }

/-- The records received by worker `w` under an assignment of each emitted
record to the worker that received it from the channel; by Go channel
semantics each sent value is delivered to exactly one receiver, and the
worker's `range` loop invokes `processRequest` once per received record. -/
def workerInvocations (asg : List (Request × Nat)) (w : Nat) : List Request :=
  (asg.filter (fun p => p.snd == w)).map Prod.fst

/-- All `processRequest` invocations across the `k` spawned workers. -/
def allInvocations (k : Nat) (asg : List (Request × Nat)) : List Request :=
  ((List.range k).map (fun w => workerInvocations asg w)).flatten

/-- An entry of the final report: `main` logs every value drained from
`errChan`, which receives `failed to get requests: …` from the pagination
goroutine and `failed to process request %d: …` from workers. -/
inductive RunErr where
  | discovery : RunErr
  | record : Int → RecErr → RunErr
deriving DecidableEq, Repr

/-- Whether a report entry is a discovery failure. -/
def RunErr.isDiscovery : RunErr → Bool
  | .discovery => true
  | .record _ _ => false

/-- The final aggregated report: one discovery entry per discovery error sent
by the pagination goroutine, plus the workers' wrapped record errors. -/
def finalReport (d : DiscoveryResult) (workerErrs : List (Int × RecErr)) :
    List RunErr :=
  List.replicate d.errors RunErr.discovery ++
    workerErrs.map (fun p => RunErr.record p.fst p.snd)

/-- What a worker sends onto `errChan` for one processed record (`main.go`
lines 45–49): the wrapped error when `processRequest` returned one, nothing
otherwise. -/
def workerEmits (request : Request) (r : ProcResult) : List RunErr :=
  match r.err with
  | some e => [RunErr.record request.ID e]
  | none => []

/-- The configuration flags of `main`. -/
structure Config where
  apiURL : String
  token : String
  outputDir : String
  numWorkers : Int
  overwrite : Bool
deriving DecidableEq, Repr

/-- The startup validation of `main` (`main.go` lines 26–30): the run aborts
(`os.Exit(1)`) exactly when `-api-url` or `-token` is empty.  No other flag is
validated. -/
def flagValidationFails (cfg : Config) : Bool :=
  cfg.apiURL == "" || cfg.token == ""

/-- The number of workers the loop `for i := 0; i < numWorkers; i++` spawns:
`numWorkers` when positive, zero otherwise. -/
def workersSpawned (cfg : Config) : Nat :=
  cfg.numWorkers.toNat

/-! ## Helper lemmas -/

theorem getAssoc_setAssoc (l : List (FPath × List Nat)) (p q : FPath) (b : List Nat) :
    getAssoc (setAssoc l p b) q = if q = p then some b else getAssoc l q := by
  induction l with
  | nil =>
    by_cases h : q = p
    · simp [setAssoc, getAssoc, h]
    · simp [setAssoc, getAssoc, h, Ne.symm h]
  | cons hd tl ih =>
    obtain ⟨r, c⟩ := hd
    by_cases hrp : r = p
    · subst hrp
      by_cases hqp : q = r
      · simp [setAssoc, getAssoc, hqp]
      · simp [setAssoc, getAssoc, hqp, Ne.symm hqp]
    · by_cases hrq : r = q
      · have hqp : ¬q = p := fun h => hrp (hrq.trans h)
        simp [setAssoc, getAssoc, hrp, hrq, hqp]
      · simp [setAssoc, getAssoc, hrp, hrq, ih]

theorem FS.getFile_writeFile (fs : FS) (p q : FPath) (b : List Nat) :
    (fs.writeFile p b).getFile q = if q = p then some b else fs.getFile q :=
  getAssoc_setAssoc fs.files p q b

theorem FS.getFile_mkdirAll (fs : FS) (d q : FPath) :
    (fs.mkdirAll d).getFile q = fs.getFile q := rfl

theorem discoverRecords_fail (mids : List Page) (rest : List (Except Unit Page))
    (hmid : ∀ p ∈ mids, p.next ≠ "") :
    discoverRecords (mids.map Except.ok ++ Except.error () :: rest) =
      { emitted := (mids.map Page.data).flatten
        errors := 1
        calls := mids.length + 1 } := by
  induction mids with
  | nil => simp [discoverRecords]
  | cons p mids ih =>
    have hp : p.next ≠ "" := hmid p (by simp)
    have ih2 := ih (fun q hq => hmid q (by simp [hq]))
    simp [discoverRecords, hp, ih2]

theorem workerInvocations_cons (x : Request × Nat) (l : List (Request × Nat)) (w : Nat) :
    workerInvocations (x :: l) w =
      if x.snd = w then x.fst :: workerInvocations l w else workerInvocations l w := by
  by_cases h : x.snd = w
  · simp [workerInvocations, List.filter_cons, h]
  · simp [workerInvocations, List.filter_cons, h]

theorem flatten_workerInvocations_cons (ws : List Nat) (x : Request × Nat)
    (l : List (Request × Nat)) (hmem : x.snd ∈ ws) (hnd : ws.Nodup) :
    ((ws.map (fun w => workerInvocations (x :: l) w)).flatten).Perm
      (x.fst :: (ws.map (fun w => workerInvocations l w)).flatten) := by
  induction ws with
  | nil => cases hmem
  | cons w ws ih =>
    rcases List.nodup_cons.mp hnd with ⟨hw, hnd2⟩
    by_cases hxw : x.snd = w
    · have hmap : ws.map (fun u => workerInvocations (x :: l) u) =
          ws.map (fun u => workerInvocations l u) := by
        apply List.map_congr_left
        intro u hu
        rw [workerInvocations_cons]
        have hne : x.snd ≠ u := by
          intro hcon
          apply hw
          rw [← hxw, hcon]
          exact hu
        simp [hne]
      rw [List.map_cons, workerInvocations_cons, if_pos hxw, hmap]
      simp
    · have hmem2 : x.snd ∈ ws := by
        rcases List.mem_cons.mp hmem with h | h
        · exact absurd h hxw
        · exact h
      have ih2 := ih hmem2 hnd2
      rw [List.map_cons, workerInvocations_cons, if_neg hxw, List.map_cons,
        List.flatten_cons, List.flatten_cons]
      refine List.Perm.trans (List.Perm.append_left _ ih2) ?_
      exact List.perm_middle

theorem allInvocations_perm (k : Nat) (l : List (Request × Nat))
    (h : ∀ p ∈ l, p.snd < k) :
    (allInvocations k l).Perm (l.map Prod.fst) := by
  induction l with
  | nil =>
    simp [allInvocations, workerInvocations]
  | cons x l ih =>
    have hx : x.snd ∈ List.range k := List.mem_range.mpr (h x (by simp))
    have step := flatten_workerInvocations_cons (List.range k) x l hx (List.nodup_range k)
    have ih2 := ih (fun p hp => h p (by simp [hp]))
    rw [List.map_cons]
    exact step.trans (ih2.cons x.fst)

/-- Download outcomes that `DownloadAttachment` reports as errors when the
skip branch does not fire. -/
def dlFails : HttpOutcome → Bool
  | .reqErr => true
  | .resp code _ copyFailed => code != 200 || copyFailed

theorem downloadAttachment_overwrite_err (fs : FS) (id : Int) (a : File)
    (rd : FPath) (out : HttpOutcome) :
    (downloadAttachment fs id a rd true out).err.isSome = dlFails out := by
  cases out with
  | reqErr => simp [downloadAttachment, dlFails]
  | resp code written copyFailed =>
    by_cases hc : code = 200
    · subst hc
      cases copyFailed <;> simp [downloadAttachment, dlFails]
    · simp [downloadAttachment, dlFails, hc]

theorem downloadLoop_ops_length (env : RecordEnv) (id : Int) (rd : FPath)
    (ov : Bool) (atts : List File) (i : Nat) (fs : FS) :
    (downloadLoop env id rd ov atts i fs).2.2.length = atts.length := by
  induction atts generalizing i fs with
  | nil => rfl
  | cons a rest ih => simp [downloadLoop, ih]

theorem downloadLoop_ops_shape (env : RecordEnv) (id : Int) (rd : FPath)
    (ov : Bool) (atts : List File) (i : Nat) (fs : FS) :
    List.Forall₂ (fun (a : File) (op : Op) =>
        op = Op.skipExisting (rd ++ [a.Name]) ∨
          op = Op.download id a.DocumentID a.Name)
      atts (downloadLoop env id rd ov atts i fs).2.2 := by
  induction atts generalizing i fs with
  | nil => simp [downloadLoop]
  | cons a rest ih =>
    simp only [downloadLoop]
    refine List.Forall₂.cons ?_ (ih _ _)
    by_cases h : (downloadAttachment fs id a rd ov (env.download i)).skipped
    · exact Or.inl (by simp [h])
    · exact Or.inr (by simp [h])

theorem downloadLoop_skip_all (env : RecordEnv) (id : Int) (rd : FPath) :
    ∀ (atts : List File) (i : Nat) (fs : FS),
      (∀ a ∈ atts, (fs.getFile (rd ++ [a.Name])).isSome = true) →
      downloadLoop env id rd false atts i fs =
        (fs, [], atts.map (fun a => Op.skipExisting (rd ++ [a.Name])))
  | [], _, _, _ => rfl
  | a :: rest, i, fs, hex => by
    have ha := hex a (by simp)
    have hskip : downloadAttachment fs id a rd false (env.download i) =
        { fs := fs, err := none, skipped := true } := by
      simp [downloadAttachment, ha]
    have ihx := downloadLoop_skip_all env id rd rest (i + 1) fs
      (fun b hb => hex b (by simp [hb]))
    simp [downloadLoop, hskip, ihx]

theorem downloadLoop_log_of_fail (env : RecordEnv) (id : Int) (rd : FPath) :
    ∀ (atts : List File) (i : Nat) (fs : FS) (j : Nat) (a : File),
      atts[j]? = some a →
      dlFails (env.download (i + j)) = true →
      LogMsg.downloadErr id a.Name ∈ (downloadLoop env id rd true atts i fs).2.1
  | [], _, _, j, a, h, _ => by simp at h
  | b :: rest, i, fs, 0, a, h, hf => by
    have hb : b = a := by simpa using h
    subst hb
    have hiso : (downloadAttachment fs id b rd true (env.download i)).err.isSome = true := by
      rw [downloadAttachment_overwrite_err]
      simpa using hf
    rcases ho : (downloadAttachment fs id b rd true (env.download i)).err with _ | e
    · rw [ho] at hiso
      simp at hiso
    · simp [downloadLoop, ho]
  | b :: rest, i, fs, j + 1, a, h, hf => by
    have hf2 : dlFails (env.download (i + 1 + j)) = true := by
      have harith : i + 1 + j = i + (j + 1) := by omega
      rw [harith]
      exact hf
    have ih := downloadLoop_log_of_fail env id rd rest (i + 1)
      (downloadAttachment fs id b rd true (env.download i)).fs j a (by simpa using h) hf2
    simp only [downloadLoop]
    simp only [List.mem_append]
    exact Or.inr ih

/-! ## Claims -/

/-- C1: for every worker count `k ≥ 1` and every finite sequence of records
delivered by the listing endpoint across all pages, the pipeline invokes
`processRequest` exactly once per record.  The channel's single-delivery
semantics is modelled by an assignment `asg` pairing each emitted record, in
emission order, with the worker that received it; each worker invokes
`processRequest` once per received record, so the multiset of invocations
across all `k` workers is exactly the multiset of discovered records: no
record is processed by two workers and none is dropped, regardless of `k`. -/
theorem everyRecordProcessedOnce (k : Nat) (hk : 1 ≤ k)
    (responses : List (Except Unit Page)) (asg : List (Request × Nat))
    (hdeliver : asg.map Prod.fst = (discoverRecords responses).emitted)
    (hworker : ∀ p ∈ asg, p.snd < k) :
    (allInvocations k asg).Perm (discoverRecords responses).emitted := by
  rw [← hdeliver]
  exact allInvocations_perm k asg hworker

/-- Witness for C1: two pages of records, distributed over two workers. -/
theorem everyRecordProcessedOnce_witness :
    (allInvocations 2 [(⟨1, "a"⟩, 0), (⟨2, "b"⟩, 1), (⟨3, "c"⟩, 0)]).Perm
      (discoverRecords [Except.ok ⟨[⟨1, "a"⟩, ⟨2, "b"⟩], "page2"⟩,
        Except.ok ⟨[⟨3, "c"⟩], ""⟩]).emitted :=
  everyRecordProcessedOnce 2 (by decide)
    [Except.ok ⟨[⟨1, "a"⟩, ⟨2, "b"⟩], "page2"⟩, Except.ok ⟨[⟨3, "c"⟩], ""⟩]
    [(⟨1, "a"⟩, 0), (⟨2, "b"⟩, 1), (⟨3, "c"⟩, 0)] (by decide) (by decide)

/-- C6: for a listing source of finitely many pages whose last page carries no
next-cursor (and the earlier ones do), discovery makes exactly one listing
call per page, emits every record of every page in source order (page order is
preserved because the driver emits a page fully before requesting the next),
reports no discovery error, and stops after the last page — never polling a
further page. -/
theorem paginationEmitsAllPagesOnce (mids : List Page) (lastP : Page)
    (hmid : ∀ p ∈ mids, p.next ≠ "") (hlast : lastP.next = "") :
    discoverRecords ((mids ++ [lastP]).map Except.ok) =
      { emitted := ((mids ++ [lastP]).map Page.data).flatten
        errors := 0
        calls := (mids ++ [lastP]).length } := by
  induction mids with
  | nil => simp [discoverRecords, hlast]
  | cons p mids ih =>
    have hp : p.next ≠ "" := hmid p (by simp)
    have ih2 := ih (fun q hq => hmid q (by simp [hq]))
    simp only [List.map_append, List.map_cons, List.map_nil] at ih2 ⊢
    simp [discoverRecords, hp, ih2]

/-- Witness for C6: three pages, the third with no next-cursor; discovery
emits the union of all three pages' records in order with three calls. -/
theorem paginationEmitsAllPagesOnce_witness :
    discoverRecords [Except.ok ⟨[⟨1, "a"⟩], "page2"⟩, Except.ok ⟨[⟨2, "b"⟩], "page3"⟩,
        Except.ok ⟨[⟨3, "c"⟩], ""⟩] =
      { emitted := [⟨1, "a"⟩, ⟨2, "b"⟩, ⟨3, "c"⟩], errors := 0, calls := 3 } := by
  have h := paginationEmitsAllPagesOnce
    [⟨[⟨1, "a"⟩], "page2"⟩, ⟨[⟨2, "b"⟩], "page3"⟩] ⟨[⟨3, "c"⟩], ""⟩ (by decide) rfl
  simpa using h

/-- C7: when a listing call fails after earlier pages already emitted records,
discovery stops there (the channel is closed by the goroutine on every exit
path), every already-emitted record is still processed by the workers (the
workers drain the channel to completion: the invocation multiset equals the
emitted records), and the final aggregated report contains exactly one
discovery-failure entry. -/
theorem discoveryFailureIsolated (mids : List Page) (rest : List (Except Unit Page))
    (hmid : ∀ p ∈ mids, p.next ≠ "")
    (k : Nat) (asg : List (Request × Nat))
    (hdeliver : asg.map Prod.fst =
      (discoverRecords (mids.map Except.ok ++ Except.error () :: rest)).emitted)
    (hworker : ∀ p ∈ asg, p.snd < k)
    (workerErrs : List (Int × RecErr)) :
    (discoverRecords (mids.map Except.ok ++ Except.error () :: rest)).emitted =
        (mids.map Page.data).flatten ∧
      (discoverRecords (mids.map Except.ok ++ Except.error () :: rest)).errors = 1 ∧
      (allInvocations k asg).Perm
        (discoverRecords (mids.map Except.ok ++ Except.error () :: rest)).emitted ∧
      (finalReport (discoverRecords (mids.map Except.ok ++ Except.error () :: rest))
          workerErrs).countP RunErr.isDiscovery = 1 := by
  have hchar := discoverRecords_fail mids rest hmid
  refine ⟨by rw [hchar], by rw [hchar], ?_, ?_⟩
  · rw [← hdeliver]
    exact allInvocations_perm k asg hworker
  · rw [hchar]
    simp [finalReport, RunErr.isDiscovery, List.countP_append, List.countP_map,
      Function.comp]

/-- Witness for C7: one page of one record emitted, then a failing listing
call; the record is still processed by the single worker and the report holds
exactly one discovery failure. -/
theorem discoveryFailureIsolated_witness :
    (discoverRecords [Except.ok ⟨[⟨1, "a"⟩], "page2"⟩, Except.error ()]).emitted =
        [⟨1, "a"⟩] ∧
      (discoverRecords [Except.ok ⟨[⟨1, "a"⟩], "page2"⟩, Except.error ()]).errors = 1 ∧
      (allInvocations 1 [(⟨1, "a"⟩, 0)]).Perm
        (discoverRecords [Except.ok ⟨[⟨1, "a"⟩], "page2"⟩, Except.error ()]).emitted ∧
      (finalReport (discoverRecords [Except.ok ⟨[⟨1, "a"⟩], "page2"⟩, Except.error ()])
          [(5, RecErr.metadata 5)]).countP RunErr.isDiscovery = 1 := by
  have h := discoveryFailureIsolated [⟨[⟨1, "a"⟩], "page2"⟩] [] (by decide) 1
    [(⟨1, "a"⟩, 0)] (by decide) (by decide) [(5, RecErr.metadata 5)]
  simpa using h

/-- C2 counterexample: a configuration with valid `-api-url`/`-token` but
`numWorkers = 0` (non-positive) passes startup validation — no configuration
error is detected and the run is not aborted; zero workers are spawned and
the run proceeds to discovery. -/
theorem nonPositiveWorkersNotDetected_counterexample :
    (Config.numWorkers ⟨"https://acme.api.zengrc.com", "key:secret", "./out", 0, false⟩ ≤ 0) ∧
      flagValidationFails ⟨"https://acme.api.zengrc.com", "key:secret", "./out", 0, false⟩
        = false ∧
      workersSpawned ⟨"https://acme.api.zengrc.com", "key:secret", "./out", 0, false⟩ = 0 := by
  decide

/-- C2 amended: startup validation detects exactly the missing-`api-url` /
missing-`token` configuration errors and aborts on those; a non-positive
worker count is never validated — such a run proceeds past validation with
zero spawned workers instead of aborting. -/
theorem startupValidationOnlyChecksFlags (cfg : Config) :
    (flagValidationFails cfg = true ↔ cfg.apiURL = "" ∨ cfg.token = "") ∧
      (cfg.numWorkers ≤ 0 → workersSpawned cfg = 0) := by
  constructor
  · simp [flagValidationFails]
  · intro h
    simp only [workersSpawned]
    omega

/-- Witness for the amended C2 theorem at a concrete configuration. -/
theorem startupValidationOnlyChecksFlags_witness :
    flagValidationFails ⟨"", "key:secret", "./out", 5, false⟩ = true ∧
      workersSpawned ⟨"https://a", "key:secret", "./out", -3, false⟩ = 0 :=
  ⟨(startupValidationOnlyChecksFlags ⟨"", "key:secret", "./out", 5, false⟩).1.mpr
      (Or.inl rfl),
    (startupValidationOnlyChecksFlags ⟨"https://a", "key:secret", "./out", -3, false⟩).2
      (by decide)⟩

/-- C3 counterexample: a download whose HTTP request succeeds but whose body
copy fails partway does leave a half-written file: the destination held
`[1, 2, 3]`, the copy wrote `[7]` and then failed, and the destination now
holds `[7]` — the prior state is not restored. -/
theorem halfWrittenFileRemains_counterexample :
    (downloadAttachment ⟨[], [(["out", "a.txt"], [1, 2, 3])]⟩ 5 ⟨9, "a.txt", "2024"⟩
        ["out"] true (.resp 200 [7] true)).err = some DlErr.copyErr ∧
      (downloadAttachment ⟨[], [(["out", "a.txt"], [1, 2, 3])]⟩ 5 ⟨9, "a.txt", "2024"⟩
          ["out"] true (.resp 200 [7] true)).fs.getFile ["out", "a.txt"] = some [7] ∧
      FS.getFile ⟨[], [(["out", "a.txt"], [1, 2, 3])]⟩ ["out", "a.txt"] = some [1, 2, 3] := by
  decide

/-- C3 amended: failures before the destination is opened (request error,
non-200 status) leave the destination's prior state unchanged, but a failure
during the byte copy leaves the partially written file in place:
`os.Create` truncates the destination before the copy and no cleanup or
rollback runs on a copy error. -/
theorem downloadFailureStates (fs : FS) (id : Int) (a : File) (dir : FPath)
    (ov : Bool) (code : Nat) (body written : List Nat) (cf : Bool)
    (hc : code ≠ 200)
    (hns : ov = true ∨ fs.getFile (dir ++ [a.Name]) = none) :
    (downloadAttachment fs id a dir ov HttpOutcome.reqErr).fs = fs ∧
      (downloadAttachment fs id a dir ov (.resp code body cf)).fs = fs ∧
      (downloadAttachment fs id a dir ov (.resp 200 written true)).err =
          some DlErr.copyErr ∧
      (downloadAttachment fs id a dir ov (.resp 200 written true)).fs.getFile
          (dir ++ [a.Name]) = some written := by
  have hsk : (!ov && (fs.getFile (dir ++ [a.Name])).isSome) = false := by
    rcases hns with h | h
    · simp [h]
    · simp [h]
  refine ⟨?_, ?_, ?_, ?_⟩
  · by_cases h : (!ov && (fs.getFile (dir ++ [a.Name])).isSome) = true
    · simp [downloadAttachment, h]
    · simp [downloadAttachment, h]
  · by_cases h : (!ov && (fs.getFile (dir ++ [a.Name])).isSome) = true
    · simp [downloadAttachment, h]
    · simp [downloadAttachment, h, hc]
  · simp [downloadAttachment, hsk]
  · simp [downloadAttachment, hsk, FS.getFile_writeFile]

/-- Witness for the amended C3 theorem at a concrete input. -/
theorem downloadFailureStates_witness :
    (downloadAttachment ⟨[], []⟩ 5 ⟨9, "a.txt", "2024"⟩ ["out"] false
        HttpOutcome.reqErr).fs = ⟨[], []⟩ ∧
      (downloadAttachment ⟨[], []⟩ 5 ⟨9, "a.txt", "2024"⟩ ["out"] false
          (.resp 404 [1] false)).fs = ⟨[], []⟩ ∧
      (downloadAttachment ⟨[], []⟩ 5 ⟨9, "a.txt", "2024"⟩ ["out"] false
          (.resp 200 [7] true)).err = some DlErr.copyErr ∧
      (downloadAttachment ⟨[], []⟩ 5 ⟨9, "a.txt", "2024"⟩ ["out"] false
          (.resp 200 [7] true)).fs.getFile ["out", "a.txt"] = some [7] :=
  downloadFailureStates ⟨[], []⟩ 5 ⟨9, "a.txt", "2024"⟩ ["out"] false 404 [1] [7] false
    (by decide) (Or.inr rfl)

/-! ## Characterizations of `processRequest` by failure case -/

theorem FS.mkdirAll_mem_dirs (fs : FS) (d : FPath) : d ∈ (fs.mkdirAll d).dirs := by
  simp only [FS.mkdirAll]
  by_cases h : d ∈ fs.dirs
  · simpa [h]
  · simp [h]

theorem processRequest_mkdirFail (env : RecordEnv) (fs : FS) (request : Request)
    (outputDir : String) (ov : Bool) (hmk : env.mkdirOk = false) :
    processRequest env fs request outputDir ov =
      { fs := fs, err := some (.dirCreate request.ID), logs := [],
        trace := [Op.mkdirAll (recordDirOf outputDir request.ID)] } := by
  simp [processRequest, hmk]

theorem processRequest_metaFetchFail (env : RecordEnv) (fs : FS) (request : Request)
    (outputDir : String) (ov : Bool) (hmk : env.mkdirOk = true)
    (hmeta : env.metadataResult = .error ()) :
    processRequest env fs request outputDir ov =
      { fs := fs.mkdirAll (recordDirOf outputDir request.ID),
        err := some (.metadata request.ID), logs := [],
        trace := [Op.mkdirAll (recordDirOf outputDir request.ID),
          Op.fetchDetails request.ID] } := by
  simp [processRequest, saveMetadata, hmk, hmeta]

theorem processRequest_metaWriteFail (env : RecordEnv) (fs : FS) (request : Request)
    (outputDir : String) (ov : Bool) (mb : List Nat) (hmk : env.mkdirOk = true)
    (hmeta : env.metadataResult = .ok mb) (hw : env.writeMetaOk = false) :
    processRequest env fs request outputDir ov =
      { fs := (fs.mkdirAll (recordDirOf outputDir request.ID)).writeFile
            (recordDirOf outputDir request.ID ++ ["metadata.json"]) mb,
        err := some (.metadata request.ID), logs := [],
        trace := [Op.mkdirAll (recordDirOf outputDir request.ID),
          Op.fetchDetails request.ID,
          Op.writeMetadata (recordDirOf outputDir request.ID ++ ["metadata.json"])] } := by
  simp [processRequest, saveMetadata, hmk, hmeta, hw]

theorem processRequest_attListFail (env : RecordEnv) (fs : FS) (request : Request)
    (outputDir : String) (ov : Bool) (mb : List Nat) (hmk : env.mkdirOk = true)
    (hmeta : env.metadataResult = .ok mb) (hw : env.writeMetaOk = true)
    (hatt : env.attachmentsResult = .error ()) :
    processRequest env fs request outputDir ov =
      { fs := (fs.mkdirAll (recordDirOf outputDir request.ID)).writeFile
            (recordDirOf outputDir request.ID ++ ["metadata.json"]) mb,
        err := some (.attachmentList request.ID), logs := [],
        trace := [Op.mkdirAll (recordDirOf outputDir request.ID),
          Op.fetchDetails request.ID,
          Op.writeMetadata (recordDirOf outputDir request.ID ++ ["metadata.json"]),
          Op.fetchAttachments request.ID] } := by
  simp [processRequest, saveMetadata, hmk, hmeta, hw, hatt]

theorem processRequest_ok (env : RecordEnv) (fs : FS) (request : Request)
    (outputDir : String) (ov : Bool) (mb : List Nat) (atts : List File)
    (hmk : env.mkdirOk = true) (hmeta : env.metadataResult = .ok mb)
    (hw : env.writeMetaOk = true) (hatt : env.attachmentsResult = .ok atts) :
    processRequest env fs request outputDir ov =
      { fs := (downloadLoop env request.ID (recordDirOf outputDir request.ID) ov atts 0
            ((fs.mkdirAll (recordDirOf outputDir request.ID)).writeFile
              (recordDirOf outputDir request.ID ++ ["metadata.json"]) mb)).1,
        err := none,
        logs := (downloadLoop env request.ID (recordDirOf outputDir request.ID) ov atts 0
            ((fs.mkdirAll (recordDirOf outputDir request.ID)).writeFile
              (recordDirOf outputDir request.ID ++ ["metadata.json"]) mb)).2.1,
        trace := Op.mkdirAll (recordDirOf outputDir request.ID) ::
          Op.fetchDetails request.ID ::
          Op.writeMetadata (recordDirOf outputDir request.ID ++ ["metadata.json"]) ::
          Op.fetchAttachments request.ID ::
          (downloadLoop env request.ID (recordDirOf outputDir request.ID) ov atts 0
            ((fs.mkdirAll (recordDirOf outputDir request.ID)).writeFile
              (recordDirOf outputDir request.ID ++ ["metadata.json"]) mb)).2.2 } := by
  simp [processRequest, saveMetadata, hmk, hmeta, hw, hatt]

/-- C4 counterexample: a record with one attachment whose download fails.
`processRequest` logs the failure (with record ID and name) but returns no
error, so the worker sends nothing to the shared error channel: the failure
is not funneled to the Error Aggregator as the claim states. -/
theorem downloadFailureNotAggregated_counterexample :
    (processRequest
        { mkdirOk := true, metadataResult := .ok [1], writeMetaOk := true,
          attachmentsResult := .ok [⟨11, "a.txt", "2024"⟩],
          download := fun _ => HttpOutcome.reqErr }
        ⟨[], []⟩ ⟨7, "t"⟩ "out" true).logs = [LogMsg.downloadErr 7 "a.txt"] ∧
      (processRequest
        { mkdirOk := true, metadataResult := .ok [1], writeMetaOk := true,
          attachmentsResult := .ok [⟨11, "a.txt", "2024"⟩],
          download := fun _ => HttpOutcome.reqErr }
        ⟨[], []⟩ ⟨7, "t"⟩ "out" true).err = none ∧
      workerEmits ⟨7, "t"⟩ (processRequest
        { mkdirOk := true, metadataResult := .ok [1], writeMetaOk := true,
          attachmentsResult := .ok [⟨11, "a.txt", "2024"⟩],
          download := fun _ => HttpOutcome.reqErr }
        ⟨[], []⟩ ⟨7, "t"⟩ "out" true) = [] := by
  decide

/-- C4 amended: a failed attachment download is captured as a value and
reported immediately by the worker via `log.Printf`, annotated with the
record ID and attachment name — it is not sent to the shared error channel.
Processing continues: every descriptor is still visited (one trace operation
per descriptor) and the record is not treated as failed (`processRequest`
returns no error, so the worker forwards nothing to the Error Aggregator). -/
theorem downloadFailureLoggedAndIsolated (env : RecordEnv) (fs : FS)
    (request : Request) (outputDir : String) (mb : List Nat) (atts : List File)
    (j : Nat) (a : File)
    (hmk : env.mkdirOk = true) (hmeta : env.metadataResult = .ok mb)
    (hw : env.writeMetaOk = true) (hatt : env.attachmentsResult = .ok atts)
    (hj : atts[j]? = some a) (hfail : dlFails (env.download j) = true) :
    (processRequest env fs request outputDir true).err = none ∧
      workerEmits request (processRequest env fs request outputDir true) = [] ∧
      LogMsg.downloadErr request.ID a.Name ∈
        (processRequest env fs request outputDir true).logs ∧
      (processRequest env fs request outputDir true).trace.length =
        4 + atts.length := by
  rw [processRequest_ok env fs request outputDir true mb atts hmk hmeta hw hatt]
  refine ⟨rfl, rfl, ?_, ?_⟩
  · have h0 : dlFails (env.download (0 + j)) = true := by simpa using hfail
    exact downloadLoop_log_of_fail env request.ID (recordDirOf outputDir request.ID)
      atts 0 _ j a hj h0
  · simp [downloadLoop_ops_length]
    omega

/-- Witness for the amended C4 theorem: two attachments, the first failing;
the second is still visited and the record succeeds. -/
theorem downloadFailureLoggedAndIsolated_witness :
    (processRequest
        { mkdirOk := true, metadataResult := .ok [1], writeMetaOk := true,
          attachmentsResult := .ok [⟨11, "a.txt", "u1"⟩, ⟨12, "b.txt", "u2"⟩],
          download := fun i => if i = 0 then HttpOutcome.reqErr
            else HttpOutcome.resp 200 [5] false }
        ⟨[], []⟩ ⟨7, "t"⟩ "out" true).err = none ∧
      workerEmits ⟨7, "t"⟩ (processRequest
        { mkdirOk := true, metadataResult := .ok [1], writeMetaOk := true,
          attachmentsResult := .ok [⟨11, "a.txt", "u1"⟩, ⟨12, "b.txt", "u2"⟩],
          download := fun i => if i = 0 then HttpOutcome.reqErr
            else HttpOutcome.resp 200 [5] false }
        ⟨[], []⟩ ⟨7, "t"⟩ "out" true) = [] ∧
      LogMsg.downloadErr 7 "a.txt" ∈ (processRequest
        { mkdirOk := true, metadataResult := .ok [1], writeMetaOk := true,
          attachmentsResult := .ok [⟨11, "a.txt", "u1"⟩, ⟨12, "b.txt", "u2"⟩],
          download := fun i => if i = 0 then HttpOutcome.reqErr
            else HttpOutcome.resp 200 [5] false }
        ⟨[], []⟩ ⟨7, "t"⟩ "out" true).logs ∧
      (processRequest
        { mkdirOk := true, metadataResult := .ok [1], writeMetaOk := true,
          attachmentsResult := .ok [⟨11, "a.txt", "u1"⟩, ⟨12, "b.txt", "u2"⟩],
          download := fun i => if i = 0 then HttpOutcome.reqErr
            else HttpOutcome.resp 200 [5] false }
        ⟨[], []⟩ ⟨7, "t"⟩ "out" true).trace.length = 4 + 2 :=
  downloadFailureLoggedAndIsolated
    { mkdirOk := true, metadataResult := .ok [1], writeMetaOk := true,
      attachmentsResult := .ok [⟨11, "a.txt", "u1"⟩, ⟨12, "b.txt", "u2"⟩],
      download := fun i => if i = 0 then HttpOutcome.reqErr
        else HttpOutcome.resp 200 [5] false }
    ⟨[], []⟩ ⟨7, "t"⟩ "out" [1] [⟨11, "a.txt", "u1"⟩, ⟨12, "b.txt", "u2"⟩] 0
    ⟨11, "a.txt", "u1"⟩ rfl rfl rfl rfl rfl rfl

/-- C5 counterexample: a record with two descriptors sharing filename `"a"`
(bytes `[1]` and `[2]`), processed with the skip-existing policy
(`overwrite = false`): the destination ends with the FIRST descriptor's bytes
`[1]`, not the second's — the claim's "second overwrites the first regardless
of overwrite policy" fails for skip-existing. -/
theorem duplicateFilenames_counterexample :
    (processRequest
        { mkdirOk := true, metadataResult := .ok [0], writeMetaOk := true,
          attachmentsResult := .ok [⟨1, "a", "u1"⟩, ⟨2, "a", "u2"⟩],
          download := fun i => .resp 200 (if i = 0 then [1] else [2]) false }
        ⟨[], []⟩ ⟨3, "t"⟩ "out" false).fs.getFile ["out", "record_3", "a"] = some [1] ∧
      ([1] : List Nat) ≠ [2] := by
  decide

/-- C5 amended: when two descriptors of the same record share a display
filename, the outcome depends on the overwrite policy.  With
`overwrite = true` the second descriptor's bytes overwrite the first's within
the run; with skip-existing (the default) the first download creates the
file, so the second descriptor is silently skipped and the FIRST
descriptor's bytes remain. -/
theorem duplicateFilenamePolicy (env : RecordEnv) (fs : FS) (request : Request)
    (outputDir : String) (mb b1 b2 : List Nat) (d1 d2 : Int) (u1 u2 name : String)
    (hmk : env.mkdirOk = true) (hmeta : env.metadataResult = .ok mb)
    (hw : env.writeMetaOk = true)
    (hatt : env.attachmentsResult = .ok [⟨d1, name, u1⟩, ⟨d2, name, u2⟩])
    (h0 : env.download 0 = .resp 200 b1 false)
    (h1 : env.download 1 = .resp 200 b2 false)
    (hname : name ≠ "metadata.json")
    (habsent : fs.getFile (recordDirOf outputDir request.ID ++ [name]) = none) :
    (processRequest env fs request outputDir true).fs.getFile
        (recordDirOf outputDir request.ID ++ [name]) = some b2 ∧
      (processRequest env fs request outputDir false).fs.getFile
        (recordDirOf outputDir request.ID ++ [name]) = some b1 := by
  have hdm : recordDirOf outputDir request.ID ++ [name] ≠
      recordDirOf outputDir request.ID ++ ["metadata.json"] := by
    simp [hname]
  constructor
  · rw [processRequest_ok env fs request outputDir true mb _ hmk hmeta hw hatt]
    simp only [downloadLoop, downloadAttachment, h0, h1]
    simp [FS.getFile_writeFile]
  · rw [processRequest_ok env fs request outputDir false mb _ hmk hmeta hw hatt]
    have hget1 : ((fs.mkdirAll (recordDirOf outputDir request.ID)).writeFile
        (recordDirOf outputDir request.ID ++ ["metadata.json"]) mb).getFile
        (recordDirOf outputDir request.ID ++ [name]) = none := by
      rw [FS.getFile_writeFile, if_neg hdm, FS.getFile_mkdirAll]
      exact habsent
    simp only [downloadLoop, downloadAttachment, h0, h1]
    simp [hget1, FS.getFile_writeFile]

/-- Witness for the amended C5 theorem at a concrete input (the
`overwrite = true` half and the skip-existing half together). -/
theorem duplicateFilenamePolicy_witness :
    (processRequest
        { mkdirOk := true, metadataResult := .ok [0], writeMetaOk := true,
          attachmentsResult := .ok [⟨1, "a", "u1"⟩, ⟨2, "a", "u2"⟩],
          download := fun i => .resp 200 (if i = 0 then [1] else [2]) false }
        ⟨[], []⟩ ⟨3, "t"⟩ "out" true).fs.getFile
        (recordDirOf "out" (Request.ID ⟨3, "t"⟩) ++ ["a"]) = some [2] ∧
      (processRequest
        { mkdirOk := true, metadataResult := .ok [0], writeMetaOk := true,
          attachmentsResult := .ok [⟨1, "a", "u1"⟩, ⟨2, "a", "u2"⟩],
          download := fun i => .resp 200 (if i = 0 then [1] else [2]) false }
        ⟨[], []⟩ ⟨3, "t"⟩ "out" false).fs.getFile
        (recordDirOf "out" (Request.ID ⟨3, "t"⟩) ++ ["a"]) = some [1] :=
  duplicateFilenamePolicy
    { mkdirOk := true, metadataResult := .ok [0], writeMetaOk := true,
      attachmentsResult := .ok [⟨1, "a", "u1"⟩, ⟨2, "a", "u2"⟩],
      download := fun i => .resp 200 (if i = 0 then [1] else [2]) false }
    ⟨[], []⟩ ⟨3, "t"⟩ "out" [0] [1] [2] 1 2 "u1" "u2" "a"
    rfl rfl rfl rfl rfl rfl (by decide) rfl

/-- C8: a second run over a record with skip-existing active, where every
attachment destination already holds a file from the first run: the run
reports no error and logs nothing for the skipped attachments, the final
filesystem differs from the input only by the unconditional rewrite of
`metadata.json` (last writer wins, even with skip-existing), and every
attachment file is byte-for-byte unchanged. -/
theorem secondRunSkipExistingIdempotent (env : RecordEnv) (fs : FS)
    (request : Request) (outputDir : String) (mb : List Nat) (atts : List File)
    (hmk : env.mkdirOk = true) (hmeta : env.metadataResult = .ok mb)
    (hw : env.writeMetaOk = true) (hatt : env.attachmentsResult = .ok atts)
    (hex : ∀ a ∈ atts,
      (fs.getFile (recordDirOf outputDir request.ID ++ [a.Name])).isSome = true) :
    (processRequest env fs request outputDir false).err = none ∧
      (processRequest env fs request outputDir false).logs = [] ∧
      (processRequest env fs request outputDir false).fs =
        (fs.mkdirAll (recordDirOf outputDir request.ID)).writeFile
          (recordDirOf outputDir request.ID ++ ["metadata.json"]) mb ∧
      (∀ a ∈ atts, a.Name ≠ "metadata.json" →
        (processRequest env fs request outputDir false).fs.getFile
            (recordDirOf outputDir request.ID ++ [a.Name]) =
          fs.getFile (recordDirOf outputDir request.ID ++ [a.Name])) := by
  have hex2 : ∀ a ∈ atts,
      (((fs.mkdirAll (recordDirOf outputDir request.ID)).writeFile
        (recordDirOf outputDir request.ID ++ ["metadata.json"]) mb).getFile
        (recordDirOf outputDir request.ID ++ [a.Name])).isSome = true := by
    intro a ha
    rw [FS.getFile_writeFile]
    by_cases h : recordDirOf outputDir request.ID ++ [a.Name] =
        recordDirOf outputDir request.ID ++ ["metadata.json"]
    · simp [h]
    · rw [if_neg h, FS.getFile_mkdirAll]
      exact hex a ha
  have hloop := downloadLoop_skip_all env request.ID
    (recordDirOf outputDir request.ID) atts 0 _ hex2
  rw [processRequest_ok env fs request outputDir false mb atts hmk hmeta hw hatt]
  rw [hloop]
  refine ⟨rfl, rfl, rfl, ?_⟩
  intro a ha hnm
  show ((fs.mkdirAll (recordDirOf outputDir request.ID)).writeFile
      (recordDirOf outputDir request.ID ++ ["metadata.json"]) mb).getFile
      (recordDirOf outputDir request.ID ++ [a.Name]) =
    fs.getFile (recordDirOf outputDir request.ID ++ [a.Name])
  rw [FS.getFile_writeFile, if_neg (by simp [hnm]), FS.getFile_mkdirAll]

/-- Witness for C8: a second run over a record whose attachment file and
metadata already exist; the attachment keeps its first-run bytes `[9]` and
`metadata.json` is rewritten from `[7]` to the refetched `[8]`. -/
theorem secondRunSkipExistingIdempotent_witness :
    (processRequest
        { mkdirOk := true, metadataResult := .ok [8], writeMetaOk := true,
          attachmentsResult := .ok [⟨1, "a", "u"⟩],
          download := fun _ => HttpOutcome.resp 200 [0] false }
        ⟨[["out", "record_3"]], [(["out", "record_3", "a"], [9]),
          (["out", "record_3", "metadata.json"], [7])]⟩
        ⟨3, "t"⟩ "out" false).err = none ∧
      (processRequest
        { mkdirOk := true, metadataResult := .ok [8], writeMetaOk := true,
          attachmentsResult := .ok [⟨1, "a", "u"⟩],
          download := fun _ => HttpOutcome.resp 200 [0] false }
        ⟨[["out", "record_3"]], [(["out", "record_3", "a"], [9]),
          (["out", "record_3", "metadata.json"], [7])]⟩
        ⟨3, "t"⟩ "out" false).logs = [] ∧
      (processRequest
        { mkdirOk := true, metadataResult := .ok [8], writeMetaOk := true,
          attachmentsResult := .ok [⟨1, "a", "u"⟩],
          download := fun _ => HttpOutcome.resp 200 [0] false }
        ⟨[["out", "record_3"]], [(["out", "record_3", "a"], [9]),
          (["out", "record_3", "metadata.json"], [7])]⟩
        ⟨3, "t"⟩ "out" false).fs.getFile ["out", "record_3", "a"] = some [9] ∧
      (processRequest
        { mkdirOk := true, metadataResult := .ok [8], writeMetaOk := true,
          attachmentsResult := .ok [⟨1, "a", "u"⟩],
          download := fun _ => HttpOutcome.resp 200 [0] false }
        ⟨[["out", "record_3"]], [(["out", "record_3", "a"], [9]),
          (["out", "record_3", "metadata.json"], [7])]⟩
        ⟨3, "t"⟩ "out" false).fs.getFile ["out", "record_3", "metadata.json"]
        = some [8] := by
  have h := secondRunSkipExistingIdempotent
    { mkdirOk := true, metadataResult := .ok [8], writeMetaOk := true,
      attachmentsResult := .ok [⟨1, "a", "u"⟩],
      download := fun _ => HttpOutcome.resp 200 [0] false }
    ⟨[["out", "record_3"]], [(["out", "record_3", "a"], [9]),
      (["out", "record_3", "metadata.json"], [7])]⟩
    ⟨3, "t"⟩ "out" [8] [⟨1, "a", "u"⟩] rfl rfl rfl rfl (by decide)
  refine ⟨h.1, h.2.1, ?_, ?_⟩
  · have hx := h.2.2.2 ⟨1, "a", "u"⟩ (by simp) (by decide)
    exact hx.trans (by decide)
  · rw [h.2.2.1]
    decide

/-- C9: processing one record is strictly sequential — directory creation,
then metadata fetch/write, then attachment-list fetch, then each attachment
in list order — and a hard failure at directory creation, metadata
fetch/write, or attachment-list fetch stops processing exactly there (no
later step of that record runs, as the trace shows) with the returned error
naming the failing step and the record ID. -/
theorem recordStepsSequentialHardFailureAborts (env : RecordEnv) (fs : FS)
    (request : Request) (outputDir : String) (ov : Bool) :
    (env.mkdirOk = false →
      processRequest env fs request outputDir ov =
        { fs := fs, err := some (.dirCreate request.ID), logs := [],
          trace := [Op.mkdirAll (recordDirOf outputDir request.ID)] }) ∧
      (env.mkdirOk = true → env.metadataResult = .error () →
        processRequest env fs request outputDir ov =
          { fs := fs.mkdirAll (recordDirOf outputDir request.ID),
            err := some (.metadata request.ID), logs := [],
            trace := [Op.mkdirAll (recordDirOf outputDir request.ID),
              Op.fetchDetails request.ID] }) ∧
      (∀ mb, env.mkdirOk = true → env.metadataResult = .ok mb →
        env.writeMetaOk = false →
        processRequest env fs request outputDir ov =
          { fs := (fs.mkdirAll (recordDirOf outputDir request.ID)).writeFile
                (recordDirOf outputDir request.ID ++ ["metadata.json"]) mb,
            err := some (.metadata request.ID), logs := [],
            trace := [Op.mkdirAll (recordDirOf outputDir request.ID),
              Op.fetchDetails request.ID,
              Op.writeMetadata (recordDirOf outputDir request.ID ++
                ["metadata.json"])] }) ∧
      (∀ mb, env.mkdirOk = true → env.metadataResult = .ok mb →
        env.writeMetaOk = true → env.attachmentsResult = .error () →
        processRequest env fs request outputDir ov =
          { fs := (fs.mkdirAll (recordDirOf outputDir request.ID)).writeFile
                (recordDirOf outputDir request.ID ++ ["metadata.json"]) mb,
            err := some (.attachmentList request.ID), logs := [],
            trace := [Op.mkdirAll (recordDirOf outputDir request.ID),
              Op.fetchDetails request.ID,
              Op.writeMetadata (recordDirOf outputDir request.ID ++
                ["metadata.json"]),
              Op.fetchAttachments request.ID] }) ∧
      (∀ mb atts, env.mkdirOk = true → env.metadataResult = .ok mb →
        env.writeMetaOk = true → env.attachmentsResult = .ok atts →
        (processRequest env fs request outputDir ov).err = none ∧
          (processRequest env fs request outputDir ov).trace.take 4 =
            [Op.mkdirAll (recordDirOf outputDir request.ID),
              Op.fetchDetails request.ID,
              Op.writeMetadata (recordDirOf outputDir request.ID ++
                ["metadata.json"]),
              Op.fetchAttachments request.ID] ∧
          List.Forall₂ (fun (a : File) (op : Op) =>
              op = Op.skipExisting (recordDirOf outputDir request.ID ++ [a.Name]) ∨
                op = Op.download request.ID a.DocumentID a.Name)
            atts ((processRequest env fs request outputDir ov).trace.drop 4)) := by
  refine ⟨fun h => processRequest_mkdirFail env fs request outputDir ov h,
    fun h1 h2 => processRequest_metaFetchFail env fs request outputDir ov h1 h2,
    fun mb h1 h2 h3 =>
      processRequest_metaWriteFail env fs request outputDir ov mb h1 h2 h3,
    fun mb h1 h2 h3 h4 =>
      processRequest_attListFail env fs request outputDir ov mb h1 h2 h3 h4,
    fun mb atts h1 h2 h3 h4 => ?_⟩
  rw [processRequest_ok env fs request outputDir ov mb atts h1 h2 h3 h4]
  exact ⟨rfl, rfl,
    downloadLoop_ops_shape env request.ID (recordDirOf outputDir request.ID) ov atts 0 _⟩

/-- Witness for C9, exercising the attachment-list hard-failure branch at a
concrete input: the trace stops at the attachment-list fetch and the error
names the step and the record ID. -/
theorem recordStepsSequentialHardFailureAborts_witness :
    processRequest
        { mkdirOk := true, metadataResult := .ok [1], writeMetaOk := true,
          attachmentsResult := .error (),
          download := fun _ => HttpOutcome.reqErr }
        ⟨[], []⟩ ⟨4, "t"⟩ "out" false =
      { fs := ((⟨[], []⟩ : FS).mkdirAll (recordDirOf "out" 4)).writeFile
            (recordDirOf "out" 4 ++ ["metadata.json"]) [1],
        err := some (.attachmentList 4), logs := [],
        trace := [Op.mkdirAll (recordDirOf "out" 4), Op.fetchDetails 4,
          Op.writeMetadata (recordDirOf "out" 4 ++ ["metadata.json"]),
          Op.fetchAttachments 4] } :=
  (recordStepsSequentialHardFailureAborts
      { mkdirOk := true, metadataResult := .ok [1], writeMetaOk := true,
        attachmentsResult := .error (),
        download := fun _ => HttpOutcome.reqErr }
      ⟨[], []⟩ ⟨4, "t"⟩ "out" false).2.2.2.1 [1] rfl rfl rfl rfl

/-- C10: when a record hits a hard failure at a later step — the
attachment-list fetch failing after the metadata was written — the outputs of
the earlier steps stay on disk: the final filesystem is exactly the input
plus the created record directory and the freshly written `metadata.json`;
no rollback or cleanup of partial per-record output is performed. -/
theorem laterHardFailureKeepsEarlierOutputs (env : RecordEnv) (fs : FS)
    (request : Request) (outputDir : String) (ov : Bool) (mb : List Nat)
    (hmk : env.mkdirOk = true) (hmeta : env.metadataResult = .ok mb)
    (hw : env.writeMetaOk = true) (hatt : env.attachmentsResult = .error ()) :
    (processRequest env fs request outputDir ov).fs =
        (fs.mkdirAll (recordDirOf outputDir request.ID)).writeFile
          (recordDirOf outputDir request.ID ++ ["metadata.json"]) mb ∧
      (processRequest env fs request outputDir ov).fs.getFile
          (recordDirOf outputDir request.ID ++ ["metadata.json"]) = some mb ∧
      recordDirOf outputDir request.ID ∈
        (processRequest env fs request outputDir ov).fs.dirs ∧
      (processRequest env fs request outputDir ov).err =
        some (RecErr.attachmentList request.ID) := by
  rw [processRequest_attListFail env fs request outputDir ov mb hmk hmeta hw hatt]
  refine ⟨rfl, ?_, ?_, rfl⟩
  · rw [FS.getFile_writeFile]
    simp
  · exact FS.mkdirAll_mem_dirs fs (recordDirOf outputDir request.ID)

/-- Witness for C10 at a concrete input. -/
theorem laterHardFailureKeepsEarlierOutputs_witness :
    (processRequest
        { mkdirOk := true, metadataResult := .ok [1], writeMetaOk := true,
          attachmentsResult := .error (),
          download := fun _ => HttpOutcome.reqErr }
        ⟨[], []⟩ ⟨4, "t"⟩ "out" false).fs =
        ((⟨[], []⟩ : FS).mkdirAll (recordDirOf "out" 4)).writeFile
          (recordDirOf "out" 4 ++ ["metadata.json"]) [1] ∧
      (processRequest
        { mkdirOk := true, metadataResult := .ok [1], writeMetaOk := true,
          attachmentsResult := .error (),
          download := fun _ => HttpOutcome.reqErr }
        ⟨[], []⟩ ⟨4, "t"⟩ "out" false).fs.getFile
          (recordDirOf "out" 4 ++ ["metadata.json"]) = some [1] ∧
      recordDirOf "out" 4 ∈ (processRequest
        { mkdirOk := true, metadataResult := .ok [1], writeMetaOk := true,
          attachmentsResult := .error (),
          download := fun _ => HttpOutcome.reqErr }
        ⟨[], []⟩ ⟨4, "t"⟩ "out" false).fs.dirs ∧
      (processRequest
        { mkdirOk := true, metadataResult := .ok [1], writeMetaOk := true,
          attachmentsResult := .error (),
          download := fun _ => HttpOutcome.reqErr }
        ⟨[], []⟩ ⟨4, "t"⟩ "out" false).err = some (RecErr.attachmentList 4) :=
  laterHardFailureKeepsEarlierOutputs
    { mkdirOk := true, metadataResult := .ok [1], writeMetaOk := true,
      attachmentsResult := .error (),
      download := fun _ => HttpOutcome.reqErr }
    ⟨[], []⟩ ⟨4, "t"⟩ "out" false [1] rfl rfl rfl rfl
